import Mathlib

/- Verification of the indexing, filtering and lazy-materialization logic of
   the torchmd-net dataset classes in torchmdnet/datasets/mdcath.py and
   torchmdnet/datasets/comp6.py.

   The embedding models Python/NumPy integers as Nat/Int, floats as exact
   rationals, h5py groups as association lists keyed by strings, and fallible
   operations (KeyError, IndexError, AssertionError, NameError) as Except
   values.  Definitions follow the control flow of the source line by line. -/

set_option maxHeartbeats 1000000

abbrev Vec3 : Type := ℚ × ℚ × ℚ

/-- Python `l[i]` index resolution on a sequence of length `n`:
nonnegative indices must be `< n`; negative indices resolve from the end
(`i + n`), valid when `-n ≤ i`.  NumPy uses the same rule for scalar
integer indices. -/
def pyIdx (n : Nat) (i : Int) : Option Nat :=
  if 0 ≤ i then
    (if i < (n : Int) then some i.toNat else none)
  else
    (if 0 ≤ i + (n : Int) then some (i + (n : Int)).toNat else none)

/-- NumPy fancy indexing `xs[[i1, i2, ...]]`: every index is resolved with
`pyIdx` and the selected elements are returned as a new array; any
out-of-bounds index is an IndexError (`none`). -/
def npFancyIndex {α : Type} (xs : List α) : List Int → Option (List α)
  | [] => some []
  | i :: rest =>
    match (pyIdx xs.length i).bind (fun k => xs[k]?) with
    | none => none
    | some x =>
      match npFancyIndex xs rest with
      | none => none
      | some ys => some (x :: ys)

/-- Association-list lookup modelling `container[key]` on an h5py group or a
Python dict: the first entry with the given key. -/
def alookup {β : Type} : List (String × β) → String → Option β
  | [], _ => none
  | e :: rest, k => if e.1 = k then some e.2 else alookup rest k

/-- Fuel-driven helper for `strideTake`; the fuel is always instantiated with
the length of the list, which suffices because every step consumes at least
one element (for stride `k ≥ 1`). -/
def strideAux {α : Type} (k : Nat) : Nat → List α → List α
  | _, [] => []
  | 0, _ :: _ => []
  | fuel + 1, x :: rest => x :: strideAux k fuel (rest.drop (k - 1))

/-- Python slice `xs[::k]` for `k ≥ 1`: every `k`-th element starting at
index 0. -/
def strideTake {α : Type} (k : Nat) (xs : List α) : List α :=
  strideAux k xs.length xs

/-- Python `math.ceil(a / b)` for natural `a` and positive natural `b`. -/
def ceilPy (a b : Nat) : Nat := (a + b - 1) / b

/-- NumPy `np.isclose` with the default tolerances
`rtol = 1e-5`, `atol = 1e-8`: `|a - b| ≤ atol + rtol * |b|`. -/
def npIsClose (a b : ℚ) : Bool :=
  decide (|a - b| ≤ 1 / 100000000 + (1 / 100000) * |b|)

/- ===================== mdCATH: data model ===================== -/

/-- Attributes of one replica group in `mdCATH_source.h5`
(`pdb_group[temp][replica].attrs`). -/
structure ReplicaMeta where
  numFrames : Nat
  minGyration : ℚ
  maxGyration : ℚ
  alpha : ℚ
  beta : ℚ
  coil : ℚ
deriving DecidableEq

/-- One domain group of `mdCATH_source.h5`: scalar attributes plus the
temperature subgroups, each holding replica subgroups. -/
structure DomainMeta where
  numProteinAtoms : Nat
  numResidues : Nat
  numNoHAtoms : Nat
  temps : List (String × List (String × ReplicaMeta))
deriving DecidableEq

/-- The constructor arguments of the `mdCATH` dataset that drive filtering
and striding. -/
structure MdCathConfig where
  numAtoms : Nat
  numNoHAtoms : Option Nat
  numResidues : Nat
  temperatures : List String
  skipFrames : Nat
  pdb_list : Option (List String)
  minGyrationRadius : Option ℚ
  maxGyrationRadius : Option ℚ
  alphaBetaCoil : Option (ℚ × ℚ × ℚ)
  numFrames : Option Nat

/-- Errors raised by the embedded mdCATH code paths: Python NameError,
KeyError, the AssertionError messages of `process_specific_group`
(shape and unit checks), the AssertionError of `_setup_idx`
(phase-1/phase-2 count mismatch), and IndexError. -/
inductive MdError where
  | nameError : MdError
  | keyError : String → MdError
  | shapeMismatch : MdError
  | unitMismatch : MdError
  | indexCountMismatch : MdError
  | indexError : MdError
deriving DecidableEq

abbrev TD : Type := List (String × List (String × String))

/-- The replica-level filters of `process_data_source` (lines 123-147):
a replica is kept iff none of the configured rejection conditions fires. -/
def replicaPasses (cfg : MdCathConfig) (r : ReplicaMeta) : Bool :=
  (match cfg.numFrames with
   | some m => decide (m ≤ r.numFrames)
   | none => true) &&
  (match cfg.minGyrationRadius with
   | some g => decide (g ≤ r.minGyration)
   | none => true) &&
  (match cfg.maxGyrationRadius with
   | some g => decide (r.maxGyration ≤ g)
   | none => true) &&
  (match cfg.alphaBetaCoil with
   | some abc => npIsClose r.alpha abc.1 && npIsClose r.beta abc.2.1 &&
       npIsClose r.coil abc.2.2
   | none => true)

/-- Embedding of `self.to_download[pdb].append(p)` preceded by
`if pdb not in self.to_download: self.to_download[pdb] = []`. -/
def addPair (td : TD) (pdb : String) (p : String × String) : TD :=
  if td.any (fun e => decide (e.1 = pdb)) then
    td.map (fun e => if e.1 = pdb then (e.1, e.2 ++ [p]) else e)
  else
    td ++ [(pdb, [p])]

/-- The replica loop of `process_data_source` (lines 122-154) for one domain:
every replica of the selected temperature group is tested against the
replica-level filters; a qualifying replica is appended to `to_download[pdb]`
and contributes `ceil(numFrames / skipFrames)` conformers. -/
def processReplicas (cfg : MdCathConfig) (pdb t : String) :
    List (String × ReplicaMeta) → TD × Nat → TD × Nat
  | [], acc => acc
  | q :: rest, acc =>
    processReplicas cfg pdb t rest
      (if replicaPasses cfg q.2 then
        (addPair acc.1 pdb (t, q.1), acc.2 + ceilPy q.2.numFrames cfg.skipFrames)
      else acc)

/-- Lines 119-122 of the source: the loop `for temp in self.temperatures`
only checks membership and continues, so its sole observable effect is that
`temp` is left bound to the LAST element of `self.temperatures` when the
replica loop runs.  An empty temperature list leaves `temp` unbound
(NameError), and `pdb_group[temp]` raises KeyError when that last
temperature is absent for the domain. -/
def processDomainTemps (cfg : MdCathConfig) (pdb : String) (d : DomainMeta)
    (acc : TD × Nat) : Except MdError (TD × Nat) :=
  match cfg.temperatures.getLast? with
  | none => .error .nameError
  | some t =>
    match alookup d.temps t with
    | none => .error (.keyError t)
    | some reps => .ok (processReplicas cfg pdb t reps acc)

/-- The body of the domain loop of `process_data_source` (lines 109-154):
domain-level filters (atom count, residue count, optional non-hydrogen atom
count), then the temperature/replica processing. -/
def processDomain (cfg : MdCathConfig) (pdb : String) (d : DomainMeta)
    (acc : TD × Nat) : Except MdError (TD × Nat) :=
  if cfg.numAtoms < d.numProteinAtoms then .ok acc
  else if cfg.numResidues < d.numResidues then .ok acc
  else
    match cfg.numNoHAtoms with
    | some m =>
      if m < d.numNoHAtoms then .ok acc
      else processDomainTemps cfg pdb d acc
    | none => processDomainTemps cfg pdb d acc

/-- The domain loop of `process_data_source`: iterate the candidate list,
looking each id up in the source file (`f[pdb]`, KeyError when absent). -/
def processDomains (cfg : MdCathConfig) (src : List (String × DomainMeta)) :
    List String → TD × Nat → Except MdError (TD × Nat)
  | [], acc => .ok acc
  | pdb :: rest, acc =>
    match alookup src pdb with
    | none => .error (.keyError pdb)
    | some d =>
      match processDomain cfg pdb d acc with
      | .error e => .error e
      | .ok acc2 => processDomains cfg src rest acc2

/-- Embedding of `process_data_source` (phase 1): scan the metadata source and build
`to_download` together with `num_conformers`. -/
def process_data_source (cfg : MdCathConfig) (src : List (String × DomainMeta)) :
    Except MdError (TD × Nat) :=
  let domains := match cfg.pdb_list with
    | none => src.map Prod.fst
    | some l => l
  processDomains cfg src domains ([], 0)

/- ===================== mdCATH: phase 2 and access ===================== -/

/-- One replica group of a per-domain data file `cath_dataset_<pdb>.h5`:
the coordinate and force trajectories (lists of frames, each frame a list of
per-atom rows), the atom dimension of each array (NumPy `shape[1]`), and the
declared unit attributes. -/
structure ReplicaData where
  coords : List (List Vec3)
  coordsAtoms : Nat
  coordsUnit : String
  forces : List (List Vec3)
  forcesAtoms : Nat
  forcesUnit : String
deriving DecidableEq

/-- A per-domain data file: the atomic-number dataset `z` and the
`sims<T>K` temperature groups with their replica subgroups. -/
structure DomainData where
  z : List Nat
  sims : List (String × List (String × ReplicaData))
deriving DecidableEq

/-- Embedding of `process_specific_group`: read `z`, select
`f[pdb]["sims<temp>K"][replica]`, apply the frame stride to coordinates and
forces, and run the five assertions (frame-count match, atom-count match
against `z` for both arrays, and the two unit attributes). -/
def process_specific_group (skip : Nat) (arch : List (String × DomainData))
    (pdb t r : String) :
    Except MdError (List Nat × List (List Vec3) × List (List Vec3)) :=
  match alookup arch pdb with
  | none => .error (.keyError pdb)
  | some dd =>
    match alookup dd.sims ("sims" ++ t ++ "K") with
    | none => .error (.keyError t)
    | some grp =>
      match alookup grp r with
      | none => .error (.keyError r)
      | some rd =>
        let coords := strideTake skip rd.coords
        let forces := strideTake skip rd.forces
        if coords.length ≠ forces.length then .error .shapeMismatch
        else if rd.coordsAtoms ≠ dd.z.length then .error .shapeMismatch
        else if rd.forcesAtoms ≠ dd.z.length then .error .shapeMismatch
        else if rd.coordsUnit ≠ "Angstrom" then .error .unitMismatch
        else if rd.forcesUnit ≠ "kcal/mol/Angstrom" then .error .unitMismatch
        else .ok (dd.z, coords, forces)

/-- One flat-index entry appended by `_setup_idx`:
`tuple([data[0], data[1][j], data[2][j], [j]])`, i.e. the shared
atomic-number array, the j-th coordinate FRAME, the j-th force FRAME, and the
frame offset wrapped in a one-element list. -/
structure IdxEntry where
  z : List Nat
  coordFrame : List Vec3
  forceFrame : List Vec3
  off : List Nat
deriving DecidableEq

/-- The inner loop of `_setup_idx` over the qualifying (temperature, replica)
pairs of one domain. -/
def setupPairs (skip : Nat) (arch : List (String × DomainData)) (pdb : String) :
    List (String × String) → List IdxEntry → Except MdError (List IdxEntry)
  | [], acc => .ok acc
  | p :: rest, acc =>
    match process_specific_group skip arch pdb p.1 p.2 with
    | .error e => .error e
    | .ok (z, coords, forces) =>
      setupPairs skip arch pdb rest
        (acc ++ (coords.zip forces).enum.map
          (fun q => ⟨z, q.2.1, q.2.2, [q.1]⟩))

/-- The outer loop of `_setup_idx` over `self.to_download.items()`. -/
def setupEntries (skip : Nat) (arch : List (String × DomainData)) :
    TD → List IdxEntry → Except MdError (List IdxEntry)
  | [], acc => .ok acc
  | e :: rest, acc =>
    match setupPairs skip arch e.1 e.2 acc with
    | .error err => .error err
    | .ok acc2 => setupEntries skip arch rest acc2

/-- Embedding of `_setup_idx` (phase 2): build the flat index and assert that its length
equals the phase-1 conformer count (`IndexCountMismatch` otherwise). -/
def _setup_idx (skip : Nat) (arch : List (String × DomainData)) (td : TD)
    (n : Nat) : Except MdError (List IdxEntry) :=
  match setupEntries skip arch td [] with
  | .error e => .error e
  | .ok entries =>
    if entries.length = n then .ok entries else .error .indexCountMismatch

/-- The mutable fields of the `mdCATH` object that `len` and `get` touch:
`to_download`, `num_conformers` and the lazily built `idx`. -/
structure MdCathState where
  to_download : TD
  num_conformers : Nat
  idx : Option (List IdxEntry)
deriving DecidableEq

/-- Embedding of `len(self)`: returns `self.num_conformers`; reads no other state and
mutates nothing, so the (unchanged) state is returned alongside. -/
def mdcath_len (s : MdCathState) : Nat × MdCathState :=
  (s.num_conformers, s)

/-- The sample built by `mdCATH.get`: the tensors `z`, `pos` and `neg_dy`. -/
structure MdSample where
  z : List Nat
  pos : List Vec3
  neg_dy : List Vec3
deriving DecidableEq

/-- The three fancy-indexing reads of `mdCATH.get`
(`fields_data[0][i]`, `fields_data[1][i]`, `fields_data[2][i]` with
`i = [j]`). -/
def buildSample (entry : IdxEntry) : Except MdError MdSample :=
  match npFancyIndex entry.z (entry.off.map Int.ofNat) with
  | none => .error .indexError
  | some z2 =>
    match npFancyIndex entry.coordFrame (entry.off.map Int.ofNat) with
    | none => .error .indexError
    | some pos2 =>
      match npFancyIndex entry.forceFrame (entry.off.map Int.ofNat) with
      | none => .error .indexError
      | some neg2 => .ok ⟨z2, pos2, neg2⟩

/-- Embedding of `mdCATH.get`: build `idx` on first call, resolve `self.idx[idx]` with
Python list semantics, then unpack `*fields_data, i` and fancy-index the
three arrays with `i`. -/
def mdcath_get (skip : Nat) (arch : List (String × DomainData))
    (s : MdCathState) (i : Int) : Except MdError (MdSample × MdCathState) :=
  match s.idx with
  | some l =>
    match (pyIdx l.length i).bind (fun k => l[k]?) with
    | none => .error .indexError
    | some entry =>
      match buildSample entry with
      | .error e => .error e
      | .ok smp => .ok (smp, s)
  | none =>
    match _setup_idx skip arch s.to_download s.num_conformers with
    | .error e => .error e
    | .ok l =>
      match (pyIdx l.length i).bind (fun k => l[k]?) with
      | none => .error .indexError
      | some entry =>
        match buildSample entry with
        | .error e => .error e
        | .ok smp => .ok (smp, { s with idx := some l })

/- ===================== COMP6: enumerator ===================== -/

/-- Errors raised by the embedded COMP6 code paths: KeyError from the
element-symbol table (`UnknownElement`), KeyError from the reference-energy
table, the shape assertions of `sample_iter`, and IndexError. -/
inductive Comp6Error where
  | unknownElement : String → Comp6Error
  | keyErrorEnergy : Nat → Comp6Error
  | shapeMismatch : Comp6Error
  | indexError : Comp6Error
deriving DecidableEq

/-- Embedding of `COMP6Base.ELEMENT_ENERGIES`: per-atom baseline energies (Hartree),
copied from ANI-1x, for H, C, N, O. -/
def ELEMENT_ENERGIES (z : Nat) : Option ℚ :=
  if z = 1 then some (-(500607632585 : ℚ) / 1000000000000)
  else if z = 6 then some (-(378302333826 : ℚ) / 10000000000)
  else if z = 7 then some (-(545680045287 : ℚ) / 10000000000)
  else if z = 8 then some (-(750362229210 : ℚ) / 10000000000)
  else none

/-- Embedding of `COMP6Base.ATOMIC_NUMBERS`: the fixed 4-entry symbol table. -/
def ATOMIC_NUMBERS (s : String) : Option Nat :=
  if s = "H" then some 1
  else if s = "C" then some 6
  else if s = "N" then some 7
  else if s = "O" then some 8
  else none

/-- Embedding of `COMP6Base.HARTREE_TO_EV = 27.211386246`. -/
def HARTREE_TO_EV : ℚ := 27211386246 / 1000000000

/-- The list comprehension
`[self.ATOMIC_NUMBERS[atom] for atom in mol["species"]]`: a symbol absent
from the table raises KeyError at the first offender. -/
def mapSpecies : List String → Except Comp6Error (List Nat)
  | [] => .ok []
  | s :: rest =>
    match ATOMIC_NUMBERS s with
    | none => .error (.unknownElement s)
    | some z =>
      match mapSpecies rest with
      | .error e => .error e
      | .ok zs => .ok (z :: zs)

/-- Embedding of `sum(COMP6Base.ELEMENT_ENERGIES[z] for z in atomic_numbers)`:
KeyError when an atomic number is outside the table. -/
def sumElementEnergies : List Nat → Except Comp6Error ℚ
  | [] => .ok 0
  | z :: rest =>
    match ELEMENT_ENERGIES z with
    | none => .error (.keyErrorEnergy z)
    | some e =>
      match sumElementEnergies rest with
      | .error err => .error err
      | .ok s => .ok (e + s)

/-- Embedding of `COMP6Base.compute_reference_energy`: the summed baseline energies
converted to eV. -/
def compute_reference_energy (zs : List Nat) : Except Comp6Error ℚ :=
  match sumElementEnergies zs with
  | .error e => .error e
  | .ok s => .ok (s * HARTREE_TO_EV)

/-- One molecule group of a COMP6 archive: the per-atom species list, the
coordinate frames, the per-frame energies and the per-frame force arrays,
plus the NumPy atom dimensions (`shape[1]`) of the coordinate and force
arrays. -/
structure Mol where
  species : List String
  coordinates : List (List Vec3)
  posAtoms : Nat
  energies : List ℚ
  forces : List (List Vec3)
  forcesAtoms : Nat

/-- One sample yielded by `sample_iter`: `z`, `pos`, `y`, `neg_dy`. -/
structure Comp6Sample where
  z : List Nat
  pos : List Vec3
  y : ℚ
  neg_dy : List Vec3
deriving DecidableEq

def scaleVec (c : ℚ) (v : Vec3) : Vec3 := (c * v.1, c * v.2.1, c * v.2.2)

/-- Embedding of `zip(all_pos, all_y, all_neg_dy)` followed by building one `Data` per
frame; Python `zip` stops at the shortest sequence. -/
def zip3Samples (z : List Nat) :
    List (List Vec3) → List ℚ → List (List Vec3) → List Comp6Sample
  | p :: ps, e :: es, f :: fs => ⟨z, p, e, f⟩ :: zip3Samples z ps es fs
  | _, _, _ => []

/-- The per-molecule body of `COMP6Base.sample_iter` (lines 76-111):
map species to atomic numbers, convert energies and forces by the fixed
Hartree-to-eV constant, subtract the molecule reference energy, run the
shape assertions, then yield one sample per frame, applying the optional
`pre_filter` predicate and `pre_transform` rewrite.
(The assertions `shape[2] == 3` hold by construction in this model, where a
row is a `Vec3`.) -/
def sampleIterMol (pf : Option (Comp6Sample → Bool))
    (pt : Option (Comp6Sample → Comp6Sample)) (m : Mol) :
    Except Comp6Error (List Comp6Sample) :=
  match mapSpecies m.species with
  | .error e => .error e
  | .ok z =>
    let all_pos := m.coordinates
    let all_y := m.energies.map (fun e => e * HARTREE_TO_EV)
    let all_neg_dy := m.forces.map (fun fr => fr.map (scaleVec HARTREE_TO_EV))
    match compute_reference_energy z with
    | .error e => .error e
    | .ok ref =>
      let all_y2 := all_y.map (fun e => e - ref)
      if all_pos.length ≠ all_y2.length then .error .shapeMismatch
      else if m.posAtoms ≠ z.length then .error .shapeMismatch
      else if all_neg_dy.length ≠ all_y2.length then .error .shapeMismatch
      else if m.forcesAtoms ≠ z.length then .error .shapeMismatch
      else
        let samples := zip3Samples z all_pos all_y2 all_neg_dy
        let kept := match pf with
          | none => samples
          | some f => samples.filter f
        .ok (match pt with
          | none => kept
          | some g => kept.map g)

/-- The molecule loop of `sample_iter` over one archive: molecules in
iteration order; an error while processing a molecule aborts the pass. -/
def sampleIterFile (pf : Option (Comp6Sample → Bool))
    (pt : Option (Comp6Sample → Comp6Sample)) :
    List (String × Mol) → Except Comp6Error (List Comp6Sample)
  | [] => .ok []
  | q :: rest =>
    match sampleIterMol pf pt q.2 with
    | .error e => .error e
    | .ok xs =>
      match sampleIterFile pf pt rest with
      | .error e => .error e
      | .ok ys => .ok (xs ++ ys)

/- ===================== COMP6v1: aggregator ===================== -/

/-- The construction-time loop of `COMP6v1.__init__`:
`for i_subset, subset in enumerate(self.subsets): for i_sample in
range(len(subset)): self.subset_indices.append([i_subset, i_sample])`,
with the running subset index made explicit. -/
def subsetIndicesFrom : Nat → List Nat → List (Nat × Nat)
  | _, [] => []
  | i, n :: rest =>
    ((List.range n).map (fun j => (i, j))) ++ subsetIndicesFrom (i + 1) rest

/-- Embedding of `self.subset_indices` as a function of the sub-dataset lengths. -/
def subsetIndices (lens : List Nat) : List (Nat × Nat) :=
  subsetIndicesFrom 0 lens

/-- Embedding of `COMP6v1.len`: the precomputed `num_samples = sum(len(subset) ...)`. -/
def comp6v1_len {α : Type} (subsets : List (List α)) : Nat :=
  (subsets.map List.length).sum

/-- Embedding of `COMP6v1.get`: `i_subset, i_sample = self.subset_indices[idx]` (NumPy
scalar indexing) followed by `self.subsets[i_subset][i_sample]` (Python list
indexing). -/
def comp6v1_get {α : Type} (subsets : List (List α)) (i : Int) :
    Except Comp6Error α :=
  let table := subsetIndices (subsets.map List.length)
  match (pyIdx table.length i).bind (fun k => table[k]?) with
  | none => .error .indexError
  | some q =>
    match subsets[q.1]? with
    | none => .error .indexError
    | some sub =>
      match (pyIdx sub.length (Int.ofNat q.2)).bind (fun k => sub[k]?) with
      | none => .error .indexError
      | some x => .ok x

/- ===================== derived notions used by the statements ===================== -/

/-- The frame count recorded in the metadata source for the unit
(domain, temperature, replica), resolved by name (0 when absent). -/
def pairFrames (src : List (String × DomainMeta)) (pdb t r : String) : Nat :=
  match alookup src pdb with
  | none => 0
  | some d =>
    match alookup d.temps t with
    | none => 0
    | some reps =>
      match alookup reps r with
      | none => 0
      | some rm => rm.numFrames

/-- The sum, over all qualifying (domain, temperature, replica) units of a
`to_download` table, of `ceil(unit_frame_count / skip_stride)`. -/
def tdSum (src : List (String × DomainMeta)) (skip : Nat) (td : TD) : Nat :=
  (td.map (fun e =>
    (e.2.map (fun p => ceilPy (pairFrames src e.1 p.1 p.2) skip)).sum)).sum

/-- Structural well-formedness of the metadata source that HDF5 guarantees:
the replica names inside each temperature group are distinct. -/
def srcWF (src : List (String × DomainMeta)) : Bool :=
  src.all (fun e => e.2.temps.all (fun tg =>
    decide ((tg.2.map Prod.fst).Nodup)))

/-- The domain-level filters, as the kept (non-rejected) direction. -/
def domFilterOK (cfg : MdCathConfig) (d : DomainMeta) : Prop :=
  d.numProteinAtoms ≤ cfg.numAtoms ∧ d.numResidues ≤ cfg.numResidues ∧
  (∀ m, cfg.numNoHAtoms = some m → d.numNoHAtoms ≤ m)

/-- What phase 1 guarantees for one entry of `to_download`: a non-empty
qualifying-pair list, every recorded pair carrying the last configured
temperature label, and a domain record that passed every domain-level
filter. -/
def entryOK (cfg : MdCathConfig) (src : List (String × DomainMeta))
    (e : String × List (String × String)) : Prop :=
  e.2 ≠ [] ∧
  (∀ p ∈ e.2, cfg.temperatures.getLast? = some p.1) ∧
  ∃ d, alookup src e.1 = some d ∧ domFilterOK cfg d

/-- Consistency of one per-domain data file with the metadata source for one
qualifying unit: all groups resolve, the declared units are correct, the
strided coordinate and force trajectories have equal frame counts, the atom
dimensions match `z`, and the raw frame count agrees with the metadata
attribute `numFrames`. -/
def pairDataOK (skip : Nat) (src : List (String × DomainMeta))
    (arch : List (String × DomainData)) (pdb t r : String) : Bool :=
  match alookup arch pdb with
  | none => false
  | some dd =>
    match alookup dd.sims ("sims" ++ t ++ "K") with
    | none => false
    | some grp =>
      match alookup grp r with
      | none => false
      | some rd =>
        decide ((strideTake skip rd.coords).length =
          (strideTake skip rd.forces).length) &&
        decide (rd.coordsAtoms = dd.z.length) &&
        decide (rd.forcesAtoms = dd.z.length) &&
        decide (rd.coordsUnit = "Angstrom") &&
        decide (rd.forcesUnit = "kcal/mol/Angstrom") &&
        decide (rd.coords.length = pairFrames src pdb t r)

/-- Conjunction of `pairDataOK` over every qualifying unit of a `to_download` table. -/
def archAllOK (skip : Nat) (src : List (String × DomainMeta))
    (arch : List (String × DomainData)) (td : TD) : Bool :=
  td.all (fun e => e.2.all (fun p => pairDataOK skip src arch e.1 p.1 p.2))

/-- One domain record with every temperature group other than the last
configured temperature label removed. -/
def keepD (cfg : MdCathConfig) (d : DomainMeta) : DomainMeta :=
  match cfg.temperatures.getLast? with
  | none => { d with temps := [] }
  | some t => { d with temps := d.temps.filter (fun tg => decide (tg.1 = t)) }

/-- The metadata source with every temperature group other than the last
configured temperature label removed from every domain. -/
def keepLastTemp (cfg : MdCathConfig) (src : List (String × DomainMeta)) :
    List (String × DomainMeta) :=
  src.map (fun e => (e.1, keepD cfg e.2))

/- ===================== concrete fixtures ===================== -/

/-- A replica metadata record that passes every optional filter. -/
def rmPass (n : Nat) : ReplicaMeta := ⟨n, 0, 0, 0, 0, 0⟩

/-- mdCATH fixture configuration: defaults with one temperature and stride 1. -/
def cfgM : MdCathConfig :=
  ⟨5000, none, 1000, ["348"], 1, none, none, none, none, none⟩

/-- mdCATH fixture source: one small domain with one replica of 3 frames. -/
def srcM : List (String × DomainMeta) :=
  [("d1", ⟨2, 1, 1, [("348", [("r0", rmPass 3)])]⟩)]

/-- The qualifying set produced by phase 1 on the fixture. -/
def tdM : TD := [("d1", [("348", "r0")])]

/-- mdCATH fixture data archive: domain `d1` with two atoms and three frames. -/
def archM : List (String × DomainData) :=
  [("d1",
    ⟨[1, 6],
     [("sims348K",
       [("r0",
         ⟨[[(0, 0, 0), (1, 1, 1)], [(2, 2, 2), (3, 3, 3)], [(4, 4, 4), (5, 5, 5)]],
          2, "Angstrom",
          [[(10, 10, 10), (11, 11, 11)], [(12, 12, 12), (13, 13, 13)],
           [(14, 14, 14), (15, 15, 15)]],
          2, "kcal/mol/Angstrom"⟩)])]⟩)]

/-- The flat index that phase 2 builds on the fixture. -/
def idxM : List IdxEntry :=
  [⟨[1, 6], [(0, 0, 0), (1, 1, 1)], [(10, 10, 10), (11, 11, 11)], [0]⟩,
   ⟨[1, 6], [(2, 2, 2), (3, 3, 3)], [(12, 12, 12), (13, 13, 13)], [1]⟩,
   ⟨[1, 6], [(4, 4, 4), (5, 5, 5)], [(14, 14, 14), (15, 15, 15)], [2]⟩]

/-- The fixture state right after construction (index not yet built). -/
def s0M : MdCathState := ⟨tdM, 3, none⟩

/-- The fixture state after phase-2 materialization. -/
def s1M : MdCathState := ⟨tdM, 3, some idxM⟩

/-- Scenario configuration of the spec: stride 2, temperature "348". -/
def cfgW : MdCathConfig :=
  ⟨5000, none, 1000, ["348"], 2, none, none, none, none, none⟩

/-- Scenario source: one domain with 50 atoms and 10 residues, temperature
"348" with two replicas of 10 and 5 frames. -/
def srcW : List (String × DomainMeta) :=
  [("d1", ⟨50, 10, 25, [("348", [("r0", rmPass 10), ("r1", rmPass 5)])]⟩)]

/-- The qualifying set of the scenario. -/
def tdW : TD := [("d1", [("348", "r0"), ("348", "r1")])]

/-- Scenario data archive: two-atom frames, 10 and 5 of them. -/
def archW : List (String × DomainData) :=
  [("d1",
    ⟨[1, 6],
     [("sims348K",
       [("r0",
         ⟨List.replicate 10 [(0, 0, 0), (1, 1, 1)], 2, "Angstrom",
          List.replicate 10 [(0, 0, 0), (1, 1, 1)], 2, "kcal/mol/Angstrom"⟩),
        ("r1",
         ⟨List.replicate 5 [(0, 0, 0), (1, 1, 1)], 2, "Angstrom",
          List.replicate 5 [(0, 0, 0), (1, 1, 1)], 2, "kcal/mol/Angstrom"⟩)])]⟩)]

/-- Configuration with two requested temperatures (the C3/C9 fixture). -/
def cfgC3 : MdCathConfig :=
  ⟨5000, none, 1000, ["320", "348"], 1, none, none, none, none, none⟩

/-- Source where the requested temperature "320" is present with a
qualifying replica but the last requested temperature "348" is absent. -/
def srcC3 : List (String × DomainMeta) :=
  [("d1", ⟨10, 5, 5, [("320", [("r0", rmPass 5)])]⟩)]

/-- Source where both requested temperatures are present, each with one
qualifying replica. -/
def srcC3b : List (String × DomainMeta) :=
  [("d1", ⟨10, 5, 5, [("320", [("r0", rmPass 5)]), ("348", [("r0", rmPass 5)])]⟩)]

/-- C7 fixture: a qualifying domain next to a domain rejected by the
atom-count filter. -/
def srcC7 : List (String × DomainMeta) :=
  [("d1", ⟨50, 10, 25, [("348", [("r0", rmPass 4)])]⟩),
   ("d2", ⟨9999, 10, 25, [("348", [("r0", rmPass 4)])]⟩)]

/-- COMP6 fixture molecule: two hydrogens, one frame. -/
def molH : Mol :=
  ⟨["H", "H"], [[(0, 0, 0), (1, 0, 0)]], 2, [3], [[(0, 0, 1), (0, 0, 2)]], 2⟩

/-- The samples `sample_iter` yields on `molH` (extracted from the run). -/
def sH : List Comp6Sample :=
  match sampleIterMol none none molH with
  | .ok s => s
  | .error _ => []

/-- COMP6 fixture molecule with an unrecognized element symbol. -/
def molX : Mol :=
  ⟨["H", "Q"], [[(0, 0, 0), (1, 0, 0)]], 2, [3], [[(0, 0, 1), (0, 0, 2)]], 2⟩

/-- COMP6v1 fixture: two sub-datasets of lengths 3 and 4. -/
def csW : List (List Nat) := [[10, 11, 12], [20, 21, 22, 23]]

/-- A one-domain, one-pair qualifying set shared by several witnesses. -/
def tdOne : TD := [("d1", [("348", "r0")])]

/- ===================== helper lemmas: indexing ===================== -/

theorem pyIdx_ofNat (n k : Nat) (h : k < n) : pyIdx n (Int.ofNat k) = some k := by
  rw [Int.ofNat_eq_coe]
  have h1 : (0 : Int) ≤ (k : Int) := by omega
  have h2 : (k : Int) < (n : Int) := by omega
  simp [pyIdx, h1, h2]

theorem pyIdx_none_of_ge (n : Nat) (i : Int) (h : (n : Int) ≤ i) :
    pyIdx n i = none := by
  have h1 : (0 : Int) ≤ i := by omega
  have h2 : ¬ i < (n : Int) := by omega
  simp [pyIdx, h1, h2]

theorem pyIdx_wrap (n : Nat) (i : Int) (h1 : -(n : Int) ≤ i) (h2 : i < 0) :
    pyIdx n i = some (i + (n : Int)).toNat ∧
    pyIdx n (i + (n : Int)) = some (i + (n : Int)).toNat ∧
    (i + (n : Int)).toNat < n := by
  have ha : ¬ (0 : Int) ≤ i := by omega
  have hb : (0 : Int) ≤ i + (n : Int) := by omega
  have hc : i + (n : Int) < (n : Int) := by omega
  exact ⟨by simp [pyIdx, ha, hb], by simp [pyIdx, hb, hc], by omega⟩

theorem alookup_mem {β : Type} :
    ∀ (l : List (String × β)) (k : String) (v : β),
      alookup l k = some v → (k, v) ∈ l := by
  intro l
  induction l with
  | nil => intro k v h; simp [alookup] at h
  | cons e rest ih =>
    intro k v h
    simp only [alookup] at h
    split at h
    · rename_i he
      cases h
      exact List.mem_cons.mpr (Or.inl (by cases e; simp_all))
    · exact List.mem_cons_of_mem _ (ih k v h)

theorem alookup_of_mem_nodup {β : Type} :
    ∀ (l : List (String × β)) (k : String) (v : β),
      (l.map Prod.fst).Nodup → (k, v) ∈ l → alookup l k = some v := by
  intro l
  induction l with
  | nil => intro k v _ hm; simp at hm
  | cons e rest ih =>
    intro k v hnd hm
    have hnd2 := hnd
    rw [List.map_cons, List.nodup_cons] at hnd2
    rcases List.mem_cons.mp hm with he | hm2
    · subst he
      simp [alookup]
    · have hk : e.1 ≠ k := by
        intro hek
        exact hnd2.1 (hek ▸ (List.mem_map.mpr ⟨(k, v), hm2, rfl⟩))
      simp only [alookup, if_neg hk]
      exact ih k v hnd2.2 hm2

theorem alookup_filter_key {β : Type} (t : String) :
    ∀ l : List (String × β),
      alookup (l.filter (fun e => decide (e.1 = t))) t = alookup l t := by
  intro l
  induction l with
  | nil => simp [alookup]
  | cons e rest ih =>
    by_cases he : e.1 = t
    · simp [List.filter_cons, he, alookup, ih]
    · simp [List.filter_cons, he, alookup, ih]

theorem alookup_map_value {β γ : Type} (g : β → γ) :
    ∀ (l : List (String × β)) (k : String),
      alookup (l.map (fun e => (e.1, g e.2))) k = (alookup l k).map g := by
  intro l
  induction l with
  | nil => intro k; simp [alookup]
  | cons e rest ih =>
    intro k
    simp only [List.map_cons, alookup]
    split
    · rfl
    · exact ih k

theorem ceil_step (n k : Nat) (hk : 0 < k) :
    (n - (k - 1) + k - 1) / k + 1 = (n + 1 + k - 1) / k := by
  rcases le_or_lt (k - 1) n with h | h
  · have h1 : n - (k - 1) + k - 1 = n := by omega
    have h2 : n + 1 + k - 1 = n + k := by omega
    rw [h1, h2, Nat.add_div_right _ hk]
  · have h1 : n - (k - 1) + k - 1 = k - 1 := by omega
    have h2 : n + 1 + k - 1 = n + k := by omega
    rw [h1, h2, Nat.add_div_right _ hk, Nat.div_eq_of_lt (by omega),
      Nat.div_eq_of_lt (by omega)]

theorem strideAux_length {α : Type} (k : Nat) (hk : 0 < k) :
    ∀ (fuel : Nat) (xs : List α), xs.length ≤ fuel →
      (strideAux k fuel xs).length = ceilPy xs.length k := by
  intro fuel
  induction fuel with
  | zero =>
    intro xs h
    cases xs with
    | nil => simp [strideAux, ceilPy, Nat.div_eq_of_lt (show k - 1 < k by omega)]
    | cons x rest => simp at h
  | succ f ih =>
    intro xs h
    cases xs with
    | nil => simp [strideAux, ceilPy, Nat.div_eq_of_lt (show k - 1 < k by omega)]
    | cons x rest =>
      simp only [strideAux, List.length_cons]
      rw [ih (rest.drop (k - 1))
        (by simp only [List.length_drop]; simp only [List.length_cons] at h; omega)]
      simp only [ceilPy, List.length_drop]
      exact ceil_step rest.length k hk

/-- The length of `xs[::k]` is `ceil(len(xs) / k)` for `k ≥ 1`. -/
theorem strideTake_length {α : Type} (k : Nat) (hk : 0 < k) (xs : List α) :
    (strideTake k xs).length = ceilPy xs.length k :=
  strideAux_length k hk xs.length xs le_rfl

/- ===================== helper lemmas: aggregator table ===================== -/

theorem subsetIndicesFrom_length :
    ∀ (lens : List Nat) (s : Nat),
      (subsetIndicesFrom s lens).length = lens.sum := by
  intro lens
  induction lens with
  | nil => intro s; simp [subsetIndicesFrom]
  | cons n rest ih => intro s; simp [subsetIndicesFrom, ih]

theorem subsetIndicesFrom_get? :
    ∀ (lens : List Nat) (s si li n : Nat),
      lens[si]? = some n → li < n →
      (subsetIndicesFrom s lens)[(lens.take si).sum + li]? = some (s + si, li) := by
  intro lens
  induction lens with
  | nil => intro s si li n h; simp at h
  | cons m rest ih =>
    intro s si li n h hlt
    cases si with
    | zero =>
      have hm : m = n := by simpa using h
      subst hm
      simp only [subsetIndicesFrom, List.take_zero, List.sum_nil, Nat.zero_add]
      rw [List.getElem?_append_left (by simpa using hlt)]
      simp [List.getElem?_range hlt]
    | succ si2 =>
      have h2 : rest[si2]? = some n := by simpa using h
      simp only [subsetIndicesFrom, List.take_succ_cons, List.sum_cons]
      rw [Nat.add_assoc,
        List.getElem?_append_right (by simp)]
      simp only [List.length_map, List.length_range, Nat.add_sub_cancel_left]
      rw [ih (s + 1) si2 li n h2 hlt]
      congr 2
      omega

theorem mem_subsetIndicesFrom :
    ∀ (lens : List Nat) (s : Nat) (q : Nat × Nat),
      q ∈ subsetIndicesFrom s lens →
      ∃ i n, lens[i]? = some n ∧ q.1 = s + i ∧ q.2 < n := by
  intro lens
  induction lens with
  | nil => intro s q h; simp [subsetIndicesFrom] at h
  | cons m rest ih =>
    intro s q h
    rcases List.mem_append.mp h with h1 | h2
    · rcases List.mem_map.mp h1 with ⟨j, hj, hq⟩
      exact ⟨0, m, by simp, by simp [← hq], by
        simp [← hq]; exact List.mem_range.mp hj⟩
    · rcases ih (s + 1) q h2 with ⟨i, n, hi, hq1, hq2⟩
      exact ⟨i + 1, n, by simpa using hi, by omega, hq2⟩

/- ===================== helper lemmas: COMP6 enumerator ===================== -/

theorem zip3Samples_map_y (z : List Nat) :
    ∀ (es : List ℚ) (ps fs : List (List Vec3)),
      ps.length = es.length → fs.length = es.length →
      (zip3Samples z ps es fs).map Comp6Sample.y = es := by
  intro es
  induction es with
  | nil =>
    intro ps fs h1 h2
    cases ps <;> cases fs <;> simp [zip3Samples]
  | cons e es2 ih =>
    intro ps fs h1 h2
    cases ps with
    | nil => simp at h1
    | cons p ps2 =>
      cases fs with
      | nil => simp at h2
      | cons f fs2 =>
        simp only [zip3Samples, List.map_cons]
        rw [ih ps2 fs2 (by simpa using h1) (by simpa using h2)]

theorem atomic_number_has_energy (s : String) (n : Nat)
    (h : ATOMIC_NUMBERS s = some n) : ∃ q, ELEMENT_ENERGIES n = some q := by
  unfold ATOMIC_NUMBERS at h
  split_ifs at h <;> (injection h with h2; subst h2; exact ⟨_, rfl⟩)

theorem mapSpecies_energy :
    ∀ (ss : List String) (z : List Nat), mapSpecies ss = .ok z →
      ∀ a ∈ z, ∃ q, ELEMENT_ENERGIES a = some q := by
  intro ss
  induction ss with
  | nil =>
    intro z h a ha
    simp only [mapSpecies, Except.ok.injEq] at h
    subst h
    simp at ha
  | cons s rest ih =>
    intro z h a ha
    simp only [mapSpecies] at h
    split at h
    · cases h
    · rename_i zh hz
      split at h
      · cases h
      · rename_i zs hzs
        cases h
        rcases List.mem_cons.mp ha with h1 | h2
        · exact h1 ▸ atomic_number_has_energy s zh hz
        · exact ih zs hzs a h2

theorem mapSpecies_error_of_unknown :
    ∀ (ss : List String), (∃ s ∈ ss, ATOMIC_NUMBERS s = none) →
      ∃ s2, mapSpecies ss = .error (.unknownElement s2) ∧
        s2 ∈ ss ∧ ATOMIC_NUMBERS s2 = none := by
  intro ss
  induction ss with
  | nil => intro h; simp at h
  | cons s rest ih =>
    intro h
    cases hz : ATOMIC_NUMBERS s with
    | none => exact ⟨s, by simp [mapSpecies, hz], by simp, hz⟩
    | some z =>
      have hrest : ∃ s2 ∈ rest, ATOMIC_NUMBERS s2 = none := by
        rcases h with ⟨s2, hmem, hs2⟩
        rcases List.mem_cons.mp hmem with h1 | h2
        · subst h1; rw [hz] at hs2; cases hs2
        · exact ⟨s2, h2, hs2⟩
      rcases ih hrest with ⟨s2, herr, hmem, hnone⟩
      exact ⟨s2, by simp [mapSpecies, hz, herr], List.mem_cons_of_mem _ hmem, hnone⟩

theorem sumElementEnergies_ok :
    ∀ (z : List Nat), (∀ a ∈ z, ∃ q, ELEMENT_ENERGIES a = some q) →
      sumElementEnergies z =
        .ok ((z.map (fun a => (ELEMENT_ENERGIES a).getD 0)).sum) := by
  intro z
  induction z with
  | nil => intro _; simp [sumElementEnergies]
  | cons a rest ih =>
    intro h
    obtain ⟨q, hq⟩ := h a (by simp)
    simp only [sumElementEnergies, hq]
    rw [ih (fun b hb => h b (List.mem_cons_of_mem _ hb))]
    simp [hq]

theorem compute_reference_energy_ok (z : List Nat)
    (h : ∀ a ∈ z, ∃ q, ELEMENT_ENERGIES a = some q) :
    compute_reference_energy z =
      .ok ((z.map (fun a => (ELEMENT_ENERGIES a).getD 0)).sum * HARTREE_TO_EV) := by
  simp [compute_reference_energy, sumElementEnergies_ok z h]

/- ===================== helper lemmas: mdCATH phase 1 ===================== -/

theorem tdSum_cons (src : List (String × DomainMeta)) (skip : Nat)
    (e : String × List (String × String)) (td : TD) :
    tdSum src skip (e :: td) =
      (e.2.map (fun p => ceilPy (pairFrames src e.1 p.1 p.2) skip)).sum +
        tdSum src skip td := by
  simp [tdSum]

theorem tdSum_append_single (src : List (String × DomainMeta)) (skip : Nat)
    (td : TD) (x : String × List (String × String)) :
    tdSum src skip (td ++ [x]) =
      tdSum src skip td +
        (x.2.map (fun p => ceilPy (pairFrames src x.1 p.1 p.2) skip)).sum := by
  simp [tdSum, List.map_append]

theorem addPair_keys (td : TD) (pdb : String) (p : String × String) :
    (addPair td pdb p).map Prod.fst =
      if td.any (fun e => decide (e.1 = pdb)) then td.map Prod.fst
      else td.map Prod.fst ++ [pdb] := by
  unfold addPair
  split
  · rw [List.map_map]
    apply List.map_congr_left
    intro e _
    by_cases h : e.1 = pdb <;> simp [h]
  · simp

theorem addPair_keys_nodup (td : TD) (pdb : String) (p : String × String)
    (h : (td.map Prod.fst).Nodup) :
    ((addPair td pdb p).map Prod.fst).Nodup := by
  rw [addPair_keys]
  split
  · exact h
  · rename_i hany
    have hnm : pdb ∉ td.map Prod.fst := by
      intro hmem
      rcases List.mem_map.mp hmem with ⟨e, he, hfst⟩
      exact hany (List.any_eq_true.mpr ⟨e, he, by simp [hfst]⟩)
    rw [List.nodup_append]
    exact ⟨h, List.nodup_singleton _, by
      intro a ha hb
      simp at hb
      exact hnm (hb ▸ ha)⟩

theorem mem_addPair (td : TD) (pdb : String) (p : String × String) :
    ∀ e ∈ addPair td pdb p,
      e ∈ td ∨ e = (pdb, [p]) ∨ ∃ l0, (pdb, l0) ∈ td ∧ e = (pdb, l0 ++ [p]) := by
  unfold addPair
  split
  · intro e he
    rcases List.mem_map.mp he with ⟨e0, he0, hfe⟩
    by_cases h0 : e0.1 = pdb
    · right; right
      refine ⟨e0.2, ?_, ?_⟩
      · rw [← h0]; cases e0; exact he0
      · rw [← hfe]; simp [h0]
    · left
      rw [← hfe]
      simp only [if_neg h0]
      exact he0
  · intro e he
    rcases List.mem_append.mp he with h1 | h2
    · exact Or.inl h1
    · exact Or.inr (Or.inl (by simpa using h2))

theorem tdSum_update (src : List (String × DomainMeta)) (skip : Nat)
    (pdb : String) (p : String × String) :
    ∀ td : TD, (td.map Prod.fst).Nodup → (∃ e ∈ td, e.1 = pdb) →
      tdSum src skip
          (td.map (fun e => if e.1 = pdb then (e.1, e.2 ++ [p]) else e)) =
        tdSum src skip td + ceilPy (pairFrames src pdb p.1 p.2) skip := by
  intro td
  induction td with
  | nil => intro _ hex; simp at hex
  | cons e rest ih =>
    intro hnd hex
    rw [List.map_cons, List.nodup_cons] at hnd
    by_cases h0 : e.1 = pdb
    · have hmap : rest.map
          (fun e2 => if e2.1 = pdb then (e2.1, e2.2 ++ [p]) else e2) = rest := by
        conv_rhs => rw [← List.map_id rest]
        apply List.map_congr_left
        intro e2 he2
        have hne : e2.1 ≠ pdb := by
          intro hc
          exact hnd.1 (by rw [h0, ← hc]; exact List.mem_map_of_mem _ he2)
        simp [hne]
      rw [List.map_cons, if_pos h0, hmap, tdSum_cons, tdSum_cons]
      rw [List.map_append, List.sum_append]
      simp only [List.map_cons, List.map_nil, List.sum_cons, List.sum_nil, h0]
      omega
    · have hex2 : ∃ e2 ∈ rest, e2.1 = pdb := by
        rcases hex with ⟨e2, hm, h2⟩
        rcases List.mem_cons.mp hm with rfl | hm2
        · exact absurd h2 h0
        · exact ⟨e2, hm2, h2⟩
      rw [List.map_cons, if_neg h0, tdSum_cons, tdSum_cons, ih hnd.2 hex2]
      omega

theorem addPair_tdSum (src : List (String × DomainMeta)) (skip : Nat)
    (td : TD) (pdb : String) (p : String × String)
    (hnd : (td.map Prod.fst).Nodup) :
    tdSum src skip (addPair td pdb p) =
      tdSum src skip td + ceilPy (pairFrames src pdb p.1 p.2) skip := by
  unfold addPair
  split
  · rename_i hany
    have hex : ∃ e ∈ td, e.1 = pdb := by
      rcases List.any_eq_true.mp hany with ⟨e, he, hb⟩
      exact ⟨e, he, of_decide_eq_true hb⟩
    exact tdSum_update src skip pdb p td hnd hex
  · rw [tdSum_append_single]
    simp

theorem addPair_entryOK (cfg : MdCathConfig) (src : List (String × DomainMeta))
    (td : TD) (pdb t rn : String)
    (hall : ∀ e ∈ td, entryOK cfg src e)
    (hdom : ∃ d, alookup src pdb = some d ∧ domFilterOK cfg d)
    (htemp : cfg.temperatures.getLast? = some t) :
    ∀ e ∈ addPair td pdb (t, rn), entryOK cfg src e := by
  intro e he
  rcases mem_addPair td pdb (t, rn) e he with h1 | h2 | ⟨l0, hl0, he2⟩
  · exact hall e h1
  · subst h2
    refine ⟨by simp, ?_, hdom⟩
    intro p hp
    simp at hp
    subst hp
    exact htemp
  · subst he2
    obtain ⟨hne, hps, _⟩ := hall (pdb, l0) hl0
    refine ⟨by simp, ?_, hdom⟩
    intro p hp
    rcases List.mem_append.mp hp with hp1 | hp2
    · exact hps p hp1
    · simp at hp2
      subst hp2
      exact htemp

theorem processReplicas_inv (cfg : MdCathConfig) (src : List (String × DomainMeta))
    (pdb t : String)
    (hdom : ∃ d, alookup src pdb = some d ∧ domFilterOK cfg d)
    (htemp : cfg.temperatures.getLast? = some t) :
    ∀ (reps : List (String × ReplicaMeta)) (acc : TD × Nat),
      (∀ q ∈ reps, pairFrames src pdb t q.1 = q.2.numFrames) →
      ((acc.1.map Prod.fst).Nodup ∧ acc.2 = tdSum src cfg.skipFrames acc.1 ∧
        ∀ e ∈ acc.1, entryOK cfg src e) →
      (((processReplicas cfg pdb t reps acc).1.map Prod.fst).Nodup ∧
        (processReplicas cfg pdb t reps acc).2 =
          tdSum src cfg.skipFrames (processReplicas cfg pdb t reps acc).1 ∧
        ∀ e ∈ (processReplicas cfg pdb t reps acc).1, entryOK cfg src e) := by
  intro reps
  induction reps with
  | nil => intro acc _ hinv; exact hinv
  | cons q rest ih =>
    intro acc hframes hinv
    obtain ⟨h1, h2, h3⟩ := hinv
    simp only [processReplicas]
    split
    · apply ih _ (fun q2 hq2 => hframes q2 (List.mem_cons_of_mem _ hq2))
      refine ⟨addPair_keys_nodup _ _ _ h1, ?_,
        addPair_entryOK cfg src acc.1 pdb t q.1 h3 hdom htemp⟩
      rw [addPair_tdSum src cfg.skipFrames acc.1 pdb (t, q.1) h1,
        hframes q (List.mem_cons_self _ _), ← h2]
    · exact ih _ (fun q2 hq2 => hframes q2 (List.mem_cons_of_mem _ hq2)) ⟨h1, h2, h3⟩

theorem processDomain_inv (cfg : MdCathConfig) (src : List (String × DomainMeta))
    (pdb : String) (d : DomainMeta)
    (hd : alookup src pdb = some d) (hwf : srcWF src = true) :
    ∀ (acc acc2 : TD × Nat),
      ((acc.1.map Prod.fst).Nodup ∧ acc.2 = tdSum src cfg.skipFrames acc.1 ∧
        ∀ e ∈ acc.1, entryOK cfg src e) →
      processDomain cfg pdb d acc = .ok acc2 →
      ((acc2.1.map Prod.fst).Nodup ∧ acc2.2 = tdSum src cfg.skipFrames acc2.1 ∧
        ∀ e ∈ acc2.1, entryOK cfg src e) := by
  intro acc acc2 hinv hp
  have hmain : ∀ (t : String) (reps : List (String × ReplicaMeta)),
      cfg.temperatures.getLast? = some t →
      alookup d.temps t = some reps →
      d.numProteinAtoms ≤ cfg.numAtoms →
      d.numResidues ≤ cfg.numResidues →
      (∀ m, cfg.numNoHAtoms = some m → d.numNoHAtoms ≤ m) →
      (((processReplicas cfg pdb t reps acc).1.map Prod.fst).Nodup ∧
        (processReplicas cfg pdb t reps acc).2 =
          tdSum src cfg.skipFrames (processReplicas cfg pdb t reps acc).1 ∧
        ∀ e ∈ (processReplicas cfg pdb t reps acc).1, entryOK cfg src e) := by
    intro t reps htemp hreps hfa hfr hfh
    have hnd : (reps.map Prod.fst).Nodup := by
      have h1 := (List.all_eq_true.mp hwf) (pdb, d) (alookup_mem src pdb d hd)
      have h2 := (List.all_eq_true.mp h1) (t, reps) (alookup_mem d.temps t reps hreps)
      exact of_decide_eq_true h2
    apply processReplicas_inv cfg src pdb t ⟨d, hd, hfa, hfr, hfh⟩ htemp reps acc
    · intro q hq
      simp only [pairFrames, hd, hreps,
        alookup_of_mem_nodup reps q.1 q.2 hnd (by cases q; exact hq)]
    · exact hinv
  unfold processDomain processDomainTemps at hp
  split at hp
  · cases hp; exact hinv
  · split at hp
    · cases hp; exact hinv
    · rename_i hna hnr
      split at hp
      · rename_i m hm
        split at hp
        · cases hp; exact hinv
        · rename_i hmh
          split at hp
          · cases hp
          · rename_i t htemp
            split at hp
            · cases hp
            · rename_i reps hreps
              cases hp
              exact hmain t reps htemp hreps (by omega) (by omega)
                (fun m2 hm2 => by rw [hm] at hm2; cases hm2; omega)
      · rename_i hm
        split at hp
        · cases hp
        · rename_i t htemp
          split at hp
          · cases hp
          · rename_i reps hreps
            cases hp
            exact hmain t reps htemp hreps (by omega) (by omega)
              (fun m2 hm2 => by rw [hm] at hm2; cases hm2)

theorem processDomains_inv (cfg : MdCathConfig) (src : List (String × DomainMeta))
    (hwf : srcWF src = true) :
    ∀ (doms : List String) (acc out : TD × Nat),
      ((acc.1.map Prod.fst).Nodup ∧ acc.2 = tdSum src cfg.skipFrames acc.1 ∧
        ∀ e ∈ acc.1, entryOK cfg src e) →
      processDomains cfg src doms acc = .ok out →
      ((out.1.map Prod.fst).Nodup ∧ out.2 = tdSum src cfg.skipFrames out.1 ∧
        ∀ e ∈ out.1, entryOK cfg src e) := by
  intro doms
  induction doms with
  | nil =>
    intro acc out hinv hp
    simp only [processDomains, Except.ok.injEq] at hp
    exact hp ▸ hinv
  | cons pdb rest ih =>
    intro acc out hinv hp
    simp only [processDomains] at hp
    split at hp
    · cases hp
    · rename_i d hd
      split at hp
      · cases hp
      · rename_i acc2 hstep
        exact ih acc2 out (processDomain_inv cfg src pdb d hd hwf acc acc2 hinv hstep) hp

/-- The master phase-1 invariant: a successful metadata scan yields a
`to_download` table with distinct domain keys whose accumulated conformer
count is exactly the ceil-divided frame sum over the recorded units, and
whose every entry is non-empty, carries only the last configured temperature
label, and belongs to a domain that passed all domain-level filters. -/
theorem process_scanInv (cfg : MdCathConfig) (src : List (String × DomainMeta))
    (td : TD) (n : Nat) (hwf : srcWF src = true)
    (hp : process_data_source cfg src = .ok (td, n)) :
    (td.map Prod.fst).Nodup ∧ n = tdSum src cfg.skipFrames td ∧
      ∀ e ∈ td, entryOK cfg src e := by
  have h0 : ((([] : TD).map Prod.fst).Nodup ∧
      (0 : Nat) = tdSum src cfg.skipFrames [] ∧
      ∀ e ∈ ([] : TD), entryOK cfg src e) := by
    refine ⟨by simp, by simp [tdSum], by simp⟩
  unfold process_data_source at hp
  exact processDomains_inv cfg src hwf _ ([], 0) (td, n) h0 hp

/- ===================== helper lemmas: mdCATH phase 2 ===================== -/

theorem psg_of_pairDataOK (skip : Nat) (src : List (String × DomainMeta))
    (arch : List (String × DomainData)) (pdb t r : String)
    (hskip : 0 < skip)
    (hok : pairDataOK skip src arch pdb t r = true) :
    ∃ z coords forces,
      process_specific_group skip arch pdb t r = .ok (z, coords, forces) ∧
      coords.length = ceilPy (pairFrames src pdb t r) skip ∧
      forces.length = coords.length := by
  unfold pairDataOK at hok
  split at hok
  · cases hok
  · rename_i dd hdd
    split at hok
    · cases hok
    · rename_i grp hgrp
      split at hok
      · cases hok
      · rename_i rd hrd
        simp only [Bool.and_eq_true, decide_eq_true_eq] at hok
        obtain ⟨⟨⟨⟨⟨hlen, hca⟩, hfa⟩, hcu⟩, hfu⟩, hframes⟩ := hok
        refine ⟨dd.z, strideTake skip rd.coords, strideTake skip rd.forces, ?_, ?_, ?_⟩
        · simp only [process_specific_group, hdd, hgrp, hrd]
          simp only [if_neg (not_not_intro hlen), if_neg (not_not_intro hca),
            if_neg (not_not_intro hfa), if_neg (not_not_intro hcu),
            if_neg (not_not_intro hfu)]
        · rw [strideTake_length skip hskip, hframes]
        · exact hlen.symm

theorem setupPairs_ok (skip : Nat) (src : List (String × DomainMeta))
    (arch : List (String × DomainData)) (pdb : String) (hskip : 0 < skip) :
    ∀ (pairs : List (String × String)) (acc : List IdxEntry),
      (∀ p ∈ pairs, pairDataOK skip src arch pdb p.1 p.2 = true) →
      ∃ out, setupPairs skip arch pdb pairs acc = .ok out ∧
        out.length = acc.length +
          (pairs.map (fun p => ceilPy (pairFrames src pdb p.1 p.2) skip)).sum := by
  intro pairs
  induction pairs with
  | nil => intro acc _; exact ⟨acc, rfl, by simp⟩
  | cons p rest ih =>
    intro acc hall
    obtain ⟨z, coords, forces, hpsg, hclen, hflen⟩ :=
      psg_of_pairDataOK skip src arch pdb p.1 p.2 hskip (hall p (List.mem_cons_self _ _))
    obtain ⟨out, hout, holen⟩ :=
      ih (acc ++ (coords.zip forces).enum.map (fun q => ⟨z, q.2.1, q.2.2, [q.1]⟩))
        (fun q hq => hall q (List.mem_cons_of_mem _ hq))
    refine ⟨out, ?_, ?_⟩
    · simp only [setupPairs, hpsg]
      exact hout
    · rw [holen]
      simp only [List.length_append, List.length_map, List.enum_length,
        List.length_zip, hflen, Nat.min_self, List.map_cons, List.sum_cons, hclen]
      omega

theorem setupEntries_ok (skip : Nat) (src : List (String × DomainMeta))
    (arch : List (String × DomainData)) (hskip : 0 < skip) :
    ∀ (td : TD) (acc : List IdxEntry),
      archAllOK skip src arch td = true →
      ∃ out, setupEntries skip arch td acc = .ok out ∧
        out.length = acc.length + tdSum src skip td := by
  intro td
  induction td with
  | nil => intro acc _; exact ⟨acc, rfl, by simp [tdSum]⟩
  | cons e rest ih =>
    intro acc hall
    unfold archAllOK at hall
    rw [List.all_cons, Bool.and_eq_true] at hall
    obtain ⟨out1, hout1, hlen1⟩ :=
      setupPairs_ok skip src arch e.1 hskip e.2 acc
        (fun p hp => (List.all_eq_true.mp hall.1) p hp)
    obtain ⟨out2, hout2, hlen2⟩ := ih out1 hall.2
    refine ⟨out2, ?_, ?_⟩
    · simp only [setupEntries, hout1]
      exact hout2
    · rw [hlen2, hlen1, tdSum_cons]
      omega

/- ===================== helper lemmas: temperature restriction ===================== -/

theorem processDomainTemps_filter (cfg : MdCathConfig) (pdb : String)
    (d : DomainMeta) (acc : TD × Nat) (t : String)
    (ht : cfg.temperatures.getLast? = some t) :
    processDomainTemps cfg pdb
      { d with temps := d.temps.filter (fun tg => decide (tg.1 = t)) } acc =
      processDomainTemps cfg pdb d acc := by
  simp only [processDomainTemps, ht, alookup_filter_key t d.temps]

theorem processDomain_keepD (cfg : MdCathConfig) (pdb : String)
    (d : DomainMeta) (acc : TD × Nat) :
    processDomain cfg pdb (keepD cfg d) acc = processDomain cfg pdb d acc := by
  cases ht : cfg.temperatures.getLast? with
  | none => simp only [processDomain, processDomainTemps, keepD, ht]
  | some t =>
    simp only [keepD, ht, processDomain]
    rw [processDomainTemps_filter cfg pdb d acc t ht]

theorem processDomains_keep (cfg : MdCathConfig)
    (src : List (String × DomainMeta)) :
    ∀ (doms : List String) (acc : TD × Nat),
      processDomains cfg (keepLastTemp cfg src) doms acc =
        processDomains cfg src doms acc := by
  intro doms
  induction doms with
  | nil => intro acc; rfl
  | cons pdb rest ih =>
    intro acc
    simp only [processDomains]
    have halo : alookup (keepLastTemp cfg src) pdb =
        (alookup src pdb).map (keepD cfg) :=
      alookup_map_value (keepD cfg) src pdb
    rw [halo]
    cases hd : alookup src pdb with
    | none => rfl
    | some d =>
      simp only [Option.map_some']
      rw [processDomain_keepD cfg pdb d acc]
      cases processDomain cfg pdb d acc with
      | error e => rfl
      | ok acc2 => exact ih acc2

theorem keepLastTemp_keys (cfg : MdCathConfig)
    (src : List (String × DomainMeta)) :
    (keepLastTemp cfg src).map Prod.fst = src.map Prod.fst := by
  unfold keepLastTemp
  rw [List.map_map]
  rfl

/-- Replacing the source by its restriction to the last configured
temperature label does not change the result of the phase-1 scan: groups of
the other requested temperatures are never read. -/
theorem process_keepLastTemp (cfg : MdCathConfig)
    (src : List (String × DomainMeta)) :
    process_data_source cfg (keepLastTemp cfg src) =
      process_data_source cfg src := by
  unfold process_data_source
  cases hc : cfg.pdb_list with
  | none =>
    simp only [keepLastTemp_keys]
    exact processDomains_keep cfg src _ ([], 0)
  | some l =>
    simp only
    exact processDomains_keep cfg src l ([], 0)

/- ===================== claim theorems ===================== -/

/-- Claim C1: for every configuration of filters and stride, the phase-1
conformer total equals the sum over qualifying (domain, temperature,
replica) units of `ceil(unit_frame_count / skip_stride)`; the flat index of
phase 2 (built from data files consistent with the metadata) has exactly
that many entries; and any disagreement between the two phases makes
`_setup_idx` fail with the fatal `IndexCountMismatch` assertion instead of
being silently tolerated. -/
theorem mdcath_phase_counts_agree (cfg : MdCathConfig)
    (src : List (String × DomainMeta)) (arch : List (String × DomainData))
    (td : TD) (n : Nat)
    (hskip : 0 < cfg.skipFrames)
    (hwf : srcWF src = true)
    (hp : process_data_source cfg src = .ok (td, n))
    (harch : archAllOK cfg.skipFrames src arch td = true) :
    n = tdSum src cfg.skipFrames td ∧
    (∃ entries, _setup_idx cfg.skipFrames arch td n = .ok entries ∧
      entries.length = n) ∧
    (∀ m entries, setupEntries cfg.skipFrames arch td [] = .ok entries →
      entries.length ≠ m →
      _setup_idx cfg.skipFrames arch td m = .error .indexCountMismatch) := by
  obtain ⟨hnd, hsum, hok⟩ := process_scanInv cfg src td n hwf hp
  obtain ⟨out, hout, hlen⟩ :=
    setupEntries_ok cfg.skipFrames src arch hskip td [] harch
  have houtn : out.length = n := by
    rw [hlen, hsum]
    simp
  refine ⟨hsum, ⟨out, ?_, houtn⟩, ?_⟩
  · simp only [_setup_idx, hout]
    rw [if_pos houtn]
  · intro m entries hse hne
    simp only [_setup_idx, hse]
    rw [if_neg hne]

/-- Witness for C1 at the scenario of the spec: one 50-atom domain,
temperature "348" with replicas of 10 and 5 frames, stride 2, total
`ceil(10/2) + ceil(5/2) = 8`. -/
theorem mdcath_phase_counts_agree_witness :
    0 < cfgW.skipFrames ∧ srcWF srcW = true ∧
    process_data_source cfgW srcW = .ok (tdW, 8) ∧
    archAllOK cfgW.skipFrames srcW archW tdW = true ∧
    (8 = tdSum srcW cfgW.skipFrames tdW ∧
      (∃ entries, _setup_idx cfgW.skipFrames archW tdW 8 = .ok entries ∧
        entries.length = 8) ∧
      (∀ m entries, setupEntries cfgW.skipFrames archW tdW [] = .ok entries →
        entries.length ≠ m →
        _setup_idx cfgW.skipFrames archW tdW m = .error .indexCountMismatch)) :=
  ⟨by decide, by decide, by rfl, by rfl,
    mdcath_phase_counts_agree cfgW srcW archW tdW 8 (by decide) (by decide)
      (by rfl) (by rfl)⟩

/-- Claim C2 (code bug): on a two-atom domain with three frames,
`get(0)` returns a sample whose `z` is the one-element slice `[1]` of the
atomic-number array and whose `pos`/`neg_dy` are the single atom-0 row of
the frame, instead of the full atomic-number list with the full coordinate
and force frames; `get(2)` even raises IndexError because the stored frame
offset 2 is fancy-indexed into arrays of length 2 (the atom count). -/
theorem mdcath_get_single_atom_slice :
    process_data_source cfgM srcM = .ok (tdM, 3) ∧
    mdcath_get 1 archM s0M 0 =
      .ok (⟨[1], [(0, 0, 0)], [(10, 10, 10)]⟩, s1M) ∧
    (⟨[1], [(0, 0, 0)], [(10, 10, 10)]⟩ : MdSample).z ≠ [1, 6] ∧
    mdcath_get 1 archM s0M 2 = .error .indexError :=
  ⟨rfl, rfl, by decide, rfl⟩

/-- Claim C3 (code bug): with requested temperatures ["320", "348"], a
domain that contains "320" (with a qualifying replica) but lacks "348"
makes the scan raise KeyError("348") instead of being silently excluded —
and when both are present, only the last label "348" is recorded while the
replicas of "320" are never examined. -/
theorem mdcath_missing_temp_keyerror :
    process_data_source cfgC3 srcC3 = .error (.keyError "348") ∧
    process_data_source cfgC3 srcC3b = .ok ([("d1", [("348", "r0")])], 5) :=
  ⟨rfl, rfl⟩

/-- Claim C4 (amended): `length()` is the precomputed sum of sub-dataset
lengths and equals the lookup-table length; every flat position
`(take si lens).sum + li` resolves through the table to the sample `li` of
sub-dataset `si` (contiguous locals, configured order); any `i ≥ total`
raises IndexOutOfRange; and a negative `i ≥ −total` is NOT rejected but
resolves from the end. -/
theorem comp6v1_routing (subsets : List (List Nat)) :
    comp6v1_len subsets = (subsetIndices (subsets.map List.length)).length ∧
    (∀ si li sub x, subsets[si]? = some sub → sub[li]? = some x →
      comp6v1_get subsets
        (Int.ofNat (((subsets.map List.length).take si).sum + li)) = .ok x) ∧
    (∀ i : Int, (comp6v1_len subsets : Int) ≤ i →
      comp6v1_get subsets i = .error .indexError) ∧
    (∀ i : Int, -(comp6v1_len subsets : Int) ≤ i → i < 0 →
      comp6v1_get subsets i = comp6v1_get subsets (i + comp6v1_len subsets)) := by
  have hL : (subsetIndices (subsets.map List.length)).length =
      comp6v1_len subsets := by
    unfold subsetIndices comp6v1_len
    rw [subsetIndicesFrom_length]
  refine ⟨hL.symm, ?_, ?_, ?_⟩
  · intro si li sub x hsub hx
    have hsil : si < subsets.length := by
      by_contra hc
      rw [List.getElem?_eq_none (by omega)] at hsub
      cases hsub
    have hli : li < sub.length := by
      by_contra hc
      rw [List.getElem?_eq_none (by omega)] at hx
      cases hx
    have hsi : (subsets.map List.length)[si]? = some sub.length := by
      rw [List.getElem?_map, hsub]
      rfl
    have htab : (subsetIndices
        (subsets.map List.length))[((subsets.map List.length).take si).sum + li]? =
        some (si, li) := by
      have h0 := subsetIndicesFrom_get? (subsets.map List.length) 0 si li
        sub.length hsi hli
      rw [Nat.zero_add] at h0
      exact h0
    have hidx : ((subsets.map List.length).take si).sum + li <
        (subsets.map List.length).sum := by
      have hsplit := List.sum_take_add_sum_drop (subsets.map List.length) si
      have hdrop : (subsets.map List.length).drop si =
          sub.length :: (subsets.map List.length).drop (si + 1) := by
        rw [List.drop_eq_getElem_cons (by simpa using hsil)]
        congr 1
        have := List.getElem?_eq_getElem (l := subsets.map List.length)
          (n := si) (by simpa using hsil)
        rw [this] at hsi
        exact Option.some.inj hsi
      rw [hdrop] at hsplit
      simp only [List.sum_cons] at hsplit
      omega
    unfold comp6v1_get
    simp only
    rw [pyIdx_ofNat _ _ (by rw [hL]; unfold comp6v1_len; exact hidx)]
    simp only [Option.some_bind]
    rw [htab]
    simp only [hsub]
    rw [pyIdx_ofNat _ _ hli]
    simp only [Option.some_bind, hx]
  · intro i hi
    unfold comp6v1_get
    simp only
    rw [pyIdx_none_of_ge _ _ (by rw [hL]; exact hi)]
    simp only [Option.none_bind]
  · intro i h1 h2
    have hw := pyIdx_wrap (subsetIndices (subsets.map List.length)).length i
      (by rw [hL]; exact h1) h2
    have harg : i + (comp6v1_len subsets : Int) =
        i + ((subsetIndices (subsets.map List.length)).length : Int) := by
      rw [hL]
    unfold comp6v1_get
    simp only
    rw [harg, hw.1, hw.2.1]

/-- Counterexample to C4 as stated: with sub-dataset lengths 3 and 4,
`get(-1)` does not raise IndexOutOfRange — it resolves from the end and
returns the last sample of the second sub-dataset. -/
theorem comp6v1_get_neg_index_counterexample :
    comp6v1_get csW (-1) = .ok 23 ∧
    comp6v1_get csW (-1) ≠ .error .indexError :=
  ⟨rfl, by simp [show comp6v1_get csW (-1) = Except.ok (23 : Nat) from rfl]⟩

/-- Witness for C4 at the spec scenario: lengths 3 and 4, total 7,
`get` routes position 3 (= sum of lengths before sub-dataset 1, local 0) to
sample 20, and `get(7)` raises IndexOutOfRange. -/
theorem comp6v1_routing_witness :
    comp6v1_len csW = 7 ∧
    csW[1]? = some [20, 21, 22, 23] ∧
    [20, 21, 22, 23][0]? = some (20 : Nat) ∧
    comp6v1_get csW (Int.ofNat (((csW.map List.length).take 1).sum + 0)) =
      .ok 20 ∧
    comp6v1_get csW 7 = .error .indexError :=
  ⟨rfl, rfl, rfl,
    (comp6v1_routing csW).2.1 1 0 [20, 21, 22, 23] 20 rfl rfl,
    (comp6v1_routing csW).2.2.1 7 (by decide)⟩

/-- Claim C5: for every molecule the enumerator accepts, each emitted
per-frame energy equals the raw archive energy times 27.211386246 minus the
sum over the molecule atoms of the per-atom baseline energies at their
atomic numbers, times the same constant. -/
theorem comp6_energy_reference_subtraction (m : Mol) (z : List Nat)
    (samples : List Comp6Sample)
    (hz : mapSpecies m.species = .ok z)
    (hs : sampleIterMol none none m = .ok samples) :
    samples.map Comp6Sample.y =
      m.energies.map (fun e => e * HARTREE_TO_EV -
        (z.map (fun a => (ELEMENT_ENERGIES a).getD 0)).sum * HARTREE_TO_EV) := by
  have href := compute_reference_energy_ok z (mapSpecies_energy m.species z hz)
  simp only [sampleIterMol, hz, href] at hs
  split_ifs at hs with hc1 hc2 hc3 hc4
  have h1 : m.coordinates.length =
      ((m.energies.map (fun e => e * HARTREE_TO_EV)).map
        (fun e => e - (z.map (fun a => (ELEMENT_ENERGIES a).getD 0)).sum *
          HARTREE_TO_EV)).length := by
    exact not_ne_iff.mp hc1
  have h3 : (m.forces.map (fun fr => fr.map (scaleVec HARTREE_TO_EV))).length =
      ((m.energies.map (fun e => e * HARTREE_TO_EV)).map
        (fun e => e - (z.map (fun a => (ELEMENT_ENERGIES a).getD 0)).sum *
          HARTREE_TO_EV)).length := by
    exact not_ne_iff.mp hc3
  rw [Except.ok.injEq] at hs
  subst hs
  rw [zip3Samples_map_y z _ _ _ h1 h3]
  rw [List.map_map]
  rfl

/-- Witness for C5: a two-hydrogen molecule with one frame of raw energy 3;
the emitted energy is `3 × c − (2 × baseline(H)) × c`. -/
theorem comp6_energy_reference_subtraction_witness :
    mapSpecies molH.species = .ok [1, 1] ∧
    sampleIterMol none none molH = .ok sH ∧
    sH.map Comp6Sample.y =
      molH.energies.map (fun e => e * HARTREE_TO_EV -
        ([1, 1].map (fun a => (ELEMENT_ENERGIES a).getD 0)).sum *
          HARTREE_TO_EV) :=
  ⟨rfl, rfl, comp6_energy_reference_subtraction molH [1, 1] sH rfl rfl⟩

/-- Claim C6: a species symbol outside the fixed 4-entry table makes the
enumerator fail with `UnknownElement` while mapping symbols to atomic
numbers — before any sample of that molecule is yielded — and the same
error aborts the archive pass. -/
theorem comp6_unknown_element_aborts (pf : Option (Comp6Sample → Bool))
    (pt : Option (Comp6Sample → Comp6Sample)) (m : Mol) (s : String)
    (hmem : s ∈ m.species) (habs : ATOMIC_NUMBERS s = none) :
    (∃ s2, s2 ∈ m.species ∧ ATOMIC_NUMBERS s2 = none ∧
      sampleIterMol pf pt m = .error (.unknownElement s2)) ∧
    (∀ name, ∃ s2, sampleIterFile pf pt [(name, m)] =
      .error (.unknownElement s2)) := by
  obtain ⟨s2, herr, hm2, hn2⟩ :=
    mapSpecies_error_of_unknown m.species ⟨s, hmem, habs⟩
  constructor
  · exact ⟨s2, hm2, hn2, by simp only [sampleIterMol, herr]⟩
  · intro name
    exact ⟨s2, by simp only [sampleIterFile, sampleIterMol, herr]⟩

/-- Witness for C6: the symbol "Q" is not in the table and the enumerator
fails on a molecule containing it. -/
theorem comp6_unknown_element_aborts_witness :
    ("Q" ∈ molX.species) ∧ ATOMIC_NUMBERS "Q" = none ∧
    ((∃ s2, s2 ∈ molX.species ∧ ATOMIC_NUMBERS s2 = none ∧
        sampleIterMol none none molX = .error (.unknownElement s2)) ∧
      (∀ name, ∃ s2, sampleIterFile none none [(name, molX)] =
        .error (.unknownElement s2))) :=
  ⟨by decide, rfl,
    comp6_unknown_element_aborts none none molX "Q" (by decide) rfl⟩

/-- Claim C7: after a successful phase-1 scan, every domain key in the
qualifying set refers to a domain satisfying all configured domain maxima,
and owns a non-empty list of qualifying (temperature, replica) pairs — a
domain with zero qualifying pairs is absent, never present with `[]`. -/
theorem mdcath_qualifying_set_filters (cfg : MdCathConfig)
    (src : List (String × DomainMeta)) (td : TD) (n : Nat)
    (hwf : srcWF src = true)
    (hp : process_data_source cfg src = .ok (td, n)) :
    ∀ e ∈ td, e.2 ≠ [] ∧ ∃ d, alookup src e.1 = some d ∧
      d.numProteinAtoms ≤ cfg.numAtoms ∧ d.numResidues ≤ cfg.numResidues ∧
      (∀ m, cfg.numNoHAtoms = some m → d.numNoHAtoms ≤ m) := by
  intro e he
  obtain ⟨_, _, hok⟩ := process_scanInv cfg src td n hwf hp
  have h2 := hok e he
  unfold entryOK domFilterOK at h2
  obtain ⟨hne, _, d, hd, hfa, hfr, hfh⟩ := h2
  exact ⟨hne, d, hd, hfa, hfr, hfh⟩

/-- Witness for C7: a qualifying 50-atom domain next to a 9999-atom domain
that the filter rejects; only the former appears, with a non-empty pair
list. -/
theorem mdcath_qualifying_set_filters_witness :
    srcWF srcC7 = true ∧
    process_data_source cfgW srcC7 = .ok (tdOne, 2) ∧
    ∀ e ∈ tdOne, e.2 ≠ [] ∧ ∃ d, alookup srcC7 e.1 = some d ∧
      d.numProteinAtoms ≤ cfgW.numAtoms ∧ d.numResidues ≤ cfgW.numResidues ∧
      (∀ m, cfgW.numNoHAtoms = some m → d.numNoHAtoms ≤ m) :=
  ⟨by decide, rfl,
    mdcath_qualifying_set_filters cfgW srcC7 tdOne 2 (by decide) rfl⟩

/-- Claim C8: `len` returns the phase-1 conformer count, leaves the state
(in particular the unbuilt lazy index) untouched, is stable across repeated
calls, and returns the same value after a `get` call has triggered phase-2
materialization. -/
theorem mdcath_len_stable (skip : Nat) (arch : List (String × DomainData))
    (s : MdCathState) (i : Int) :
    (mdcath_len s).1 = s.num_conformers ∧
    (mdcath_len s).2 = s ∧
    (mdcath_len (mdcath_len s).2).1 = (mdcath_len s).1 ∧
    (∀ smp s2, mdcath_get skip arch s i = .ok (smp, s2) →
      (mdcath_len s2).1 = (mdcath_len s).1) := by
  refine ⟨rfl, rfl, rfl, ?_⟩
  intro smp s2 h
  unfold mdcath_get at h
  split at h
  · split at h
    · cases h
    · split at h
      · cases h
      · cases h
        rfl
  · split at h
    · cases h
    · split at h
      · cases h
      · split at h
        · cases h
        · cases h
          rfl

/-- Witness for C8: on the fixture, `get(0)` materializes the index, and
`len` returns the same value on the materialized state as before. -/
theorem mdcath_len_stable_witness :
    mdcath_get 1 archM s0M 0 =
      .ok (⟨[1], [(0, 0, 0)], [(10, 10, 10)]⟩, s1M) ∧
    (mdcath_len s1M).1 = (mdcath_len s0M).1 :=
  ⟨rfl, (mdcath_len_stable 1 archM s0M 0).2.2.2
    ⟨[1], [(0, 0, 0)], [(10, 10, 10)]⟩ s1M rfl⟩

/-- Claim C9: every (temperature, replica) pair the phase-1 scan records
carries the LAST label of the configured temperature list, and the groups
of all earlier requested temperatures are never examined: deleting them
from the source does not change the scan result. -/
theorem mdcath_only_last_temperature (cfg : MdCathConfig)
    (src : List (String × DomainMeta)) (td : TD) (n : Nat)
    (hwf : srcWF src = true)
    (hp : process_data_source cfg src = .ok (td, n)) :
    (∀ e ∈ td, ∀ p ∈ e.2, cfg.temperatures.getLast? = some p.1) ∧
    process_data_source cfg (keepLastTemp cfg src) =
      process_data_source cfg src := by
  refine ⟨?_, process_keepLastTemp cfg src⟩
  intro e he p hpp
  obtain ⟨_, _, hok⟩ := process_scanInv cfg src td n hwf hp
  have h2 := hok e he
  unfold entryOK at h2
  exact h2.2.1 p hpp

/-- Witness for C9: both requested temperatures are present in the source,
yet only pairs labelled "348" (the last label) are recorded. -/
theorem mdcath_only_last_temperature_witness :
    srcWF srcC3b = true ∧
    process_data_source cfgC3 srcC3b = .ok (tdOne, 5) ∧
    ((∀ e ∈ tdOne, ∀ p ∈ e.2, cfgC3.temperatures.getLast? = some p.1) ∧
      process_data_source cfgC3 (keepLastTemp cfgC3 srcC3b) =
        process_data_source cfgC3 srcC3b) :=
  ⟨by decide, rfl,
    mdcath_only_last_temperature cfgC3 srcC3b tdOne 5 (by decide) rfl⟩

/-- Claim C10: for `-length() ≤ i ≤ -1` neither `get` rejects the negative
index: both the aggregator and the (materialized) selective indexer resolve
it through the lookup structure as position `length() + i`, and the
aggregator returns that sample. -/
theorem negative_indices_resolve_from_end
    (subsets : List (List Nat)) (j : Int)
    (h1 : -(comp6v1_len subsets : Int) ≤ j) (h2 : j < 0)
    (skip : Nat) (arch : List (String × DomainData)) (s : MdCathState)
    (l : List IdxEntry) (i : Int)
    (hidx : s.idx = some l) (hn : l.length = s.num_conformers)
    (h3 : -(s.num_conformers : Int) ≤ i) (h4 : i < 0) :
    (comp6v1_get subsets j =
        comp6v1_get subsets (j + comp6v1_len subsets) ∧
      ∃ v, comp6v1_get subsets j = .ok v) ∧
    (mdcath_get skip arch s i =
        mdcath_get skip arch s (i + s.num_conformers) ∧
      ∃ entry, (pyIdx l.length i).bind (fun k => l[k]?) = some entry) := by
  have hL : (subsetIndices (subsets.map List.length)).length =
      comp6v1_len subsets := by
    unfold subsetIndices comp6v1_len
    rw [subsetIndicesFrom_length]
  have hw := pyIdx_wrap (subsetIndices (subsets.map List.length)).length j
    (by rw [hL]; exact h1) h2
  have harg : j + (comp6v1_len subsets : Int) =
      j + ((subsetIndices (subsets.map List.length)).length : Int) := by
    rw [hL]
  constructor
  · constructor
    · unfold comp6v1_get
      simp only
      rw [harg, hw.1, hw.2.1]
    · obtain ⟨⟨q1, q2⟩, hq⟩ : ∃ q, (subsetIndices
          (subsets.map List.length))[(j + ((subsetIndices
            (subsets.map List.length)).length : Int)).toNat]? = some q :=
        ⟨_, List.getElem?_eq_getElem hw.2.2⟩
      have hqmem : (q1, q2) ∈ subsetIndices (subsets.map List.length) :=
        List.getElem?_mem hq
      obtain ⟨i0, n0, hlen0, hq1, hq2⟩ :=
        mem_subsetIndicesFrom (subsets.map List.length) 0 (q1, q2) hqmem
      simp only [Nat.zero_add] at hq1
      obtain ⟨sub, hsub, hsublen⟩ : ∃ sub, subsets[i0]? = some sub ∧
          sub.length = n0 := by
        rw [List.getElem?_map] at hlen0
        rcases Option.map_eq_some'.mp hlen0 with ⟨sub, hsub2, hlen2⟩
        exact ⟨sub, hsub2, hlen2⟩
      have hq2s : q2 < sub.length := by
        have h5 : (q1, q2).2 < n0 := hq2
        simp only at h5
        omega
      refine ⟨sub.get ⟨q2, hq2s⟩, ?_⟩
      unfold comp6v1_get
      simp only
      rw [hw.1]
      simp only [Option.some_bind]
      rw [hq]
      have hq1s : q1 = i0 := hq1
      subst hq1s
      simp only [hsub]
      rw [pyIdx_ofNat _ _ hq2s]
      simp only [Option.some_bind]
      rw [List.getElem?_eq_getElem hq2s]
      rfl
  · constructor
    · have hw2 := pyIdx_wrap l.length i (by rw [hn]; exact h3) h4
      have harg2 : i + ((s.num_conformers : Nat) : Int) =
          i + (l.length : Int) := by
        rw [hn]
      unfold mdcath_get
      rw [hidx]
      simp only
      rw [harg2, hw2.1, hw2.2.1]
    · have hw2 := pyIdx_wrap l.length i (by rw [hn]; exact h3) h4
      refine ⟨l.get ⟨(i + (l.length : Int)).toNat, hw2.2.2⟩, ?_⟩
      simp only [hw2.1, Option.some_bind]
      rw [List.getElem?_eq_getElem hw2.2.2]
      rfl

/-- Witness for C10: on the fixtures, `get(-1)` of the aggregator equals
`get(6)` and succeeds; `get(-3)` of the materialized selective indexer
equals `get(0)` and its flat-position resolution succeeds. -/
theorem negative_indices_resolve_from_end_witness :
    (-(comp6v1_len csW : Int) ≤ -1 ∧ (-1 : Int) < 0 ∧
      s1M.idx = some idxM ∧ idxM.length = s1M.num_conformers ∧
      -(s1M.num_conformers : Int) ≤ -3 ∧ (-3 : Int) < 0) ∧
    ((comp6v1_get csW (-1) = comp6v1_get csW (-1 + comp6v1_len csW) ∧
        ∃ v, comp6v1_get csW (-1) = .ok v) ∧
      (mdcath_get 1 archM s1M (-3) =
          mdcath_get 1 archM s1M (-3 + s1M.num_conformers) ∧
        ∃ entry, (pyIdx idxM.length (-3)).bind (fun k => idxM[k]?) =
          some entry)) :=
  ⟨⟨by decide, by decide, rfl, rfl, by decide, by decide⟩,
    negative_indices_resolve_from_end csW (-1) (by decide) (by decide)
      1 archM s1M idxM (-3) rfl rfl (by decide) (by decide)⟩
